import Mathlib

/-!
Verification development for the Tudat Kepler-propagator unit test
(src/Astrodynamics/Propagators/unitTestKeplerPropagator.cpp) and the
spec of the propagation core it exercises.

C++ `double` values are modelled as exact rationals (ℚ).  The concrete
numbers appearing in the test (6750 km, 8.0595973215 km/s, 3600 s,
86400 s, 1e-6, ...) are all rational, so the control flow of the test is
reproduced exactly.
-/

namespace Tudat

/-- A 6-component Cartesian state, as in the C++ `CartesianElements` /
`State` classes used by the test: `state(0..5)` = x, y, z, xdot, ydot,
zdot.  Default-constructed entries are zero-initialised. -/
structure CartesianElements where
  state : Fin 6 → ℚ
deriving DecidableEq

/-- The zero state, the value of a default-constructed map entry. -/
def zeroState : CartesianElements := ⟨fun _ => 0⟩

/-! ### Model of the C++ input stream used by the benchmark loader

`std::ifstream` state relevant to the loading loop (lines 89-128 of the
source): the remaining whitespace-separated numeric tokens, the failbit
and the eofbit.  Semantics of a formatted extraction `stream >> x`:

* if the failbit is already set, the sentry aborts and nothing changes
  (in particular the eofbit is never set);
* otherwise, if no token remains, the extraction fails: eofbit and
  failbit are set and the target keeps its previous value;
* otherwise the first token is consumed.

A data file is a text table whose tokens are each followed by
whitespace (a trailing newline at end of file), so a successful read of
the last token does not set the eofbit; the eofbit is only set by the
extraction that runs past the end. -/
structure StreamState where
  tokens : List ℚ
  failbit : Bool
  eofbit : Bool
deriving DecidableEq

/-- One formatted extraction `stream >> x`; `none` means the target
variable is left unchanged. -/
def readDouble (s : StreamState) : Option ℚ × StreamState :=
  if s.failbit then (none, s)
  else
    match s.tokens with
    | [] => (none, ⟨[], true, true⟩)
    | x :: xs => (some x, ⟨xs, s.failbit, s.eofbit⟩)

/-- Extraction into a variable currently holding `old` (a failed read
leaves it unchanged). -/
def readInto (s : StreamState) (old : ℚ) : ℚ × StreamState :=
  match readDouble s with
  | (none, t) => (old, t)
  | (some x, t) => (x, t)

/-- One iteration of the benchmark-loading loop body (source lines
110-125): extract the elapsed-time column into a variable that the map
key never uses, then six state components into the map entry at key
`counter * 3600.0`, an entry that `operator[]` default-constructs to
zero before the extractions run. -/
def readRow (s : StreamState) : (Fin 6 → ℚ) × StreamState :=
  let (_, s0) := readDouble s
  let (v0, s1) := readInto s0 0
  let (v1, s2) := readInto s1 0
  let (v2, s3) := readInto s2 0
  let (v3, s4) := readInto s3 0
  let (v4, s5) := readInto s4 0
  let (v5, s6) := readInto s5 0
  (![v0, v1, v2, v3, v4, v5], s6)

/-- `loadIter n s cnt` runs exactly `n` iterations of the loop body,
ignoring the `while ( !file.eof( ) )` guard, and returns the
accumulated benchmark history (an association list in insertion order,
which for keys `cnt * 3600.0 < (cnt+1) * 3600.0 < ...` coincides with
the `std::map` key order) together with the final stream state.  The
actual loop runs the body while the guard holds; the guard is analysed
separately through `StreamState.eofbit`. -/
def loadIter : ℕ → StreamState → ℕ → List (ℚ × (Fin 6 → ℚ)) × StreamState
  | 0, s, _ => ([], s)
  | n + 1, s, cnt =>
      let p := readRow s
      let q := loadIter n p.2 (cnt + 1)
      (((cnt : ℚ) * 3600, p.1) :: q.1, q.2)

/-- Stream state after `n` iterations of the loading-loop body. -/
def streamAfter (n : ℕ) (s : StreamState) : StreamState :=
  (loadIter n s 0).2

/-- Benchmark history accumulated after `n` iterations of the
loading-loop body, starting from counter 0. -/
def benchmarkHistoryAfter (n : ℕ) (s : StreamState) : List (ℚ × (Fin 6 → ℚ)) :=
  (loadIter n s 0).1

/-- The `while ( !file.eof( ) )` loop of source lines 110-125 exits
after some finite number of body iterations. -/
def loadLoopTerminates (s : StreamState) : Prop :=
  ∃ n, (streamAfter n s).eofbit = true

/-- A successfully opened stream holding the given tokens. -/
def openedStream (toks : List ℚ) : StreamState := ⟨toks, false, false⟩

/-- The stream of an `std::ifstream` whose open failed (source lines
89-98): the failbit is set by the constructor, the eofbit is clear. -/
def unopenedStream : StreamState := ⟨[], true, false⟩

/-- The state columns of row `j` of the token list (columns 1..6 of the
7-column row; column 0 is the elapsed time, which the loader reads and
discards).  Out-of-range indices give the zero kept by a failed read. -/
def rowVals (toks : List ℚ) (j : ℕ) : Fin 6 → ℚ :=
  fun i => toks.getD (7 * j + 1 + (i : ℕ)) 0

/-! ### Model of the comparison phase of `testKeplerPropagator`

Source lines 220-260.  The two propagation histories are modelled as
their `std::map` read semantics: total functions from key to state
vector (`operator[]` default-constructs a zero entry for a missing
key). -/

/-- `mathematics::computeAbsoluteValue`. -/
def computeAbsoluteValue (x : ℚ) : ℚ := |x|

/-- Series propagation start time set at source line 185. -/
def seriesPropagationStart : ℚ := 0

/-- Series propagation end time set at source line 188. -/
def seriesPropagationEnd : ℚ := 86400

/-- Fixed output interval set at source line 191. -/
def fixedOutputInterval : ℚ := 3600

/-- Tolerance declared at source line 221. -/
def toleranceBetweenBenchmarkAndSimulationData : ℚ := 1 / 1000000

/-- The value of `differenceKeplerData` after the inner loop of source
lines 234-244.  The inner loop redeclares `i`, shadowing the outer loop
variable: the accumulated sum indexes both histories at key
`i * fixedOutputInterval` and component `i` for the *inner* `i`, so the
value does not depend on the outer iteration. -/
def differenceKeplerData (asterix benchmark : ℚ → Fin 6 → ℚ) : ℚ :=
  ∑ i : Fin 6,
    computeAbsoluteValue
      (asterix ((i : ℕ) * fixedOutputInterval) i
        - benchmark ((i : ℕ) * fixedOutputInterval) i)

/-- Number of iterations of the outer comparison loop (source lines
227-229): `unsigned int i` runs while `i < start / interval`, with `i`
promoted to `double`, so the loop body executes once for every natural
below the real bound — `⌈start / interval⌉₊` times. -/
def compareIterationCount : ℕ :=
  ⌈seriesPropagationStart / fixedOutputInterval⌉₊

/-- The boolean `isKeplerPropagatorErroneous` returned by
`testKeplerPropagator` (source lines 75, 227-260), as a function of the
two histories compared: initialised to `false`, set to `true` by any
outer-loop iteration whose accumulated difference exceeds the
tolerance. -/
def testKeplerPropagator (asterix benchmark : ℚ → Fin 6 → ℚ) : Bool :=
  (List.range compareIterationCount).foldl
    (fun flag _ =>
      if toleranceBetweenBenchmarkAndSimulationData
          < differenceKeplerData asterix benchmark then true
      else flag)
    false

/-- A propagated history that is 1000 km away from the benchmark in
every component at every key. -/
def deviatedAsterixHistory : ℚ → Fin 6 → ℚ := fun _ _ => 1000

/-- An all-zero benchmark history. -/
def benchmarkZeroHistory : ℚ → Fin 6 → ℚ := fun _ _ => 0

/-! ### Spec-modelled propagation core

The propagation core (SeriesPropagator, KeplerPropagator, NewtonRaphson)
is not under src/ — only its caller, the unit test, is.  The following
definitions model the missing parts from the spec (sections 4.2, 4.4
and 7). -/

/-- Modelled from the spec: the per-step failure taxonomy of section 7
for the missing KeplerPropagator / NewtonRaphson code — a degenerate
orbit, or a Newton-Raphson iteration that exceeded its cap. -/
inductive PropagationStepError where
  | degenerateOrbit
  | convergence
deriving DecidableEq

/-- Modelled from the spec: errors surfaced by the missing series
driver — an invalid configuration rejected before any propagation, or a
per-step failure together with the tick that triggered it. -/
inductive SeriesError where
  | invalidConfiguration
  | stepFailure (tick : ℕ) (e : PropagationStepError)
deriving DecidableEq

/-- Modelled from the spec: the configuration of the missing
SeriesPropagator — start time, end time and fixed output interval, all
in seconds. -/
structure SeriesConfig where
  start : ℚ
  stop : ℚ
  interval : ℚ
deriving DecidableEq

/-- Modelled from the spec: number of whole output intervals in the
propagation span — the last tick is the largest multiple of the
interval not exceeding `stop - start` (section 4.4). -/
def numIntervals (cfg : SeriesConfig) : ℕ :=
  ⌊(cfg.stop - cfg.start) / cfg.interval⌋₊

/-- Modelled from the spec: the tick loop of the missing
`SeriesPropagator::execute` — for each tick index `k` in the given
list, invoke the single-step propagator on the *original* initial state
with elapsed time `k * interval`, keying the resulting sample by the
tick time `start + k * interval`; the first failing step aborts the run
with that tick (sections 4.4 and 7). -/
def runTicks (prop : CartesianElements → ℚ → Except PropagationStepError CartesianElements)
    (init : CartesianElements) (cfg : SeriesConfig) :
    List ℕ → Except SeriesError (List (ℚ × CartesianElements))
  | [] => .ok []
  | k :: ks =>
      match prop init ((k : ℚ) * cfg.interval) with
      | .error e => .error (.stepFailure k e)
      | .ok s =>
          match runTicks prop init cfg ks with
          | .error e => .error e
          | .ok rest => .ok ((cfg.start + (k : ℚ) * cfg.interval, s) :: rest)

/-- Modelled from the spec: the missing `SeriesPropagator::execute` —
reject a non-positive interval or an end time not greater than the
start time with `InvalidConfigurationError` before any state is
computed, otherwise propagate every tick from the original initial
state (sections 4.4, 7 and 8). -/
def seriesExecute (prop : CartesianElements → ℚ → Except PropagationStepError CartesianElements)
    (init : CartesianElements) (cfg : SeriesConfig) :
    Except SeriesError (List (ℚ × CartesianElements)) :=
  if cfg.interval ≤ 0 ∨ cfg.stop ≤ cfg.start then .error .invalidConfiguration
  else runTicks prop init cfg (List.range (numIntervals cfg + 1))

/-- Modelled from the spec: one Newton-Raphson update of the missing
NewtonRaphson class (section 4.2). -/
def nrStep (f fp : ℚ → ℚ) (x : ℚ) : ℚ := x - f x / fp x

/-- Modelled from the spec: the `n`-th Newton-Raphson iterate from the
initial guess `x0` (section 4.2). -/
def nrIterate (f fp : ℚ → ℚ) (x0 : ℚ) : ℕ → ℚ
  | 0 => x0
  | n + 1 => nrStep f fp (nrIterate f fp x0 n)

/-- Modelled from the spec: the missing Newton-Raphson loop with `fuel`
iterations remaining — stop as soon as the residual is below the
tolerance, fail with `ConvergenceError` when the cap is exhausted
without satisfying it, never returning a truncated result (sections 4.2
and 7). -/
def newtonRaphsonAux (f fp : ℚ → ℚ) (tol : ℚ) : ℕ → ℚ → Except PropagationStepError ℚ
  | 0, x => if |f x| < tol then .ok x else .error .convergence
  | fuel + 1, x =>
      if |f x| < tol then .ok x
      else newtonRaphsonAux f fp tol fuel (nrStep f fp x)

/-- Modelled from the spec: the missing Newton-Raphson solver with
residual tolerance `tol` and maximum-iteration cap `cap` (section
4.2). -/
def newtonRaphson (f fp : ℚ → ℚ) (tol : ℚ) (cap : ℕ) (x0 : ℚ) :
    Except PropagationStepError ℚ :=
  newtonRaphsonAux f fp tol cap x0

/-! ### Lemmas about the benchmark-loading loop -/

lemma readRow_cons (t0 t1 t2 t3 t4 t5 t6 : ℚ) (rest : List ℚ) :
    readRow ⟨t0::t1::t2::t3::t4::t5::t6::rest, false, false⟩ =
      (![t1,t2,t3,t4,t5,t6], ⟨rest, false, false⟩) := rfl

lemma readRow_empty : readRow ⟨[], false, false⟩ = (![0,0,0,0,0,0], ⟨[], true, true⟩) := rfl

lemma readRow_failed (toks : List ℚ) (e : Bool) :
    readRow ⟨toks, true, e⟩ = (![0,0,0,0,0,0], ⟨toks, true, e⟩) := rfl

lemma exists_cons7 (toks : List ℚ) (h : 7 ≤ toks.length) :
    ∃ t0 t1 t2 t3 t4 t5 t6 rest, toks = t0::t1::t2::t3::t4::t5::t6::rest := by
  rcases toks with _ | ⟨t0, toks⟩; · simp at h
  rcases toks with _ | ⟨t1, toks⟩; · simp at h
  rcases toks with _ | ⟨t2, toks⟩; · simp at h
  rcases toks with _ | ⟨t3, toks⟩; · simp at h
  rcases toks with _ | ⟨t4, toks⟩; · simp at h
  rcases toks with _ | ⟨t5, toks⟩; · simp at h
  rcases toks with _ | ⟨t6, toks⟩; · simp at h
  exact ⟨t0, t1, t2, t3, t4, t5, t6, toks, rfl⟩

lemma rowVals_nil (j : ℕ) : rowVals [] j = ![0,0,0,0,0,0] := by
  funext i
  fin_cases i <;> rfl

lemma rowVals_cons_zero (t0 t1 t2 t3 t4 t5 t6 : ℚ) (rest : List ℚ) :
    rowVals (t0::t1::t2::t3::t4::t5::t6::rest) 0 = ![t1,t2,t3,t4,t5,t6] := by
  funext i
  fin_cases i <;> rfl

lemma rowVals_cons_succ (t0 t1 t2 t3 t4 t5 t6 : ℚ) (rest : List ℚ) (j : ℕ) :
    rowVals (t0::t1::t2::t3::t4::t5::t6::rest) (j+1) = rowVals rest j := by
  funext i
  show (t0::t1::t2::t3::t4::t5::t6::rest).getD (7*(j+1)+1+(i:ℕ)) 0
      = rest.getD (7*j+1+(i:ℕ)) 0
  have harith : 7*(j+1)+1+(i:ℕ) = (7*j+1+(i:ℕ))+1+1+1+1+1+1+1 := by ring
  rw [harith]
  simp [List.getD_cons_succ]

lemma rowVals_out_of_range (toks : List ℚ) (j : ℕ) (h : toks.length ≤ 7 * j) :
    rowVals toks j = ![0,0,0,0,0,0] := by
  funext i
  show toks.getD (7*j+1+(i:ℕ)) 0 = _
  rw [List.getD_eq_default]
  · fin_cases i <;> rfl
  · omega

lemma loadIter_opened : ∀ (N : ℕ) (toks : List ℚ) (cnt : ℕ), toks.length = 7 * N →
    loadIter (N + 1) ⟨toks, false, false⟩ cnt =
      ((List.range (N + 1)).map
        (fun j => (((cnt + j : ℕ) : ℚ) * 3600, rowVals toks j)),
       ⟨[], true, true⟩) := by
  intro N
  induction N with
  | zero =>
      intro toks cnt h
      have htoks : toks = [] := List.eq_nil_of_length_eq_zero (by simpa using h)
      subst htoks
      simp [loadIter, readRow_empty, rowVals_nil, List.range_succ]
  | succ N ih =>
      intro toks cnt h
      obtain ⟨t0, t1, t2, t3, t4, t5, t6, rest, rfl⟩ := exists_cons7 toks (by omega)
      have hrest : rest.length = 7 * N := by simp at h; omega
      show loadIter ((N+1)+1) ⟨t0::t1::t2::t3::t4::t5::t6::rest, false, false⟩ cnt = _
      rw [loadIter, readRow_cons]
      dsimp only
      rw [ih rest (cnt+1) hrest]
      dsimp only
      conv_rhs => rw [List.range_succ_eq_map, List.map_cons, List.map_map]
      refine congrArg₂ Prod.mk ?_ rfl
      refine congrArg₂ List.cons ?_ ?_
      · rw [rowVals_cons_zero]
        norm_num
      · refine List.map_congr_left ?_
        intro j hj
        simp only [Function.comp]
        rw [rowVals_cons_succ]
        have harith : cnt + 1 + j = cnt + Nat.succ j := by omega
        rw [harith]

lemma loadIter_progress : ∀ (m : ℕ) (toks : List ℚ) (cnt : ℕ), 7 * m ≤ toks.length →
    (loadIter m ⟨toks, false, false⟩ cnt).2 = ⟨toks.drop (7 * m), false, false⟩ := by
  intro m
  induction m with
  | zero => intro toks cnt h; simp [loadIter]
  | succ m ih =>
      intro toks cnt h
      obtain ⟨t0, t1, t2, t3, t4, t5, t6, rest, rfl⟩ := exists_cons7 toks (by omega)
      have hrest : 7 * m ≤ rest.length := by simp at h ⊢; omega
      show (loadIter (m+1) ⟨t0::t1::t2::t3::t4::t5::t6::rest, false, false⟩ cnt).2 = _
      rw [loadIter, readRow_cons]
      dsimp only
      rw [ih rest (cnt+1) hrest]
      have harith : 7 * (m+1) = (7*m)+1+1+1+1+1+1+1 := by ring
      rw [harith]
      simp [List.drop_succ_cons]

lemma loadIter_unopened : ∀ (n : ℕ) (toks : List ℚ) (e : Bool) (cnt : ℕ),
    (loadIter n ⟨toks, true, e⟩ cnt).2 = ⟨toks, true, e⟩ := by
  intro n
  induction n with
  | zero => intro toks e cnt; rfl
  | succ n ih =>
      intro toks e cnt
      rw [loadIter, readRow_failed]
      dsimp only
      exact ih toks e (cnt+1)

lemma benchmarkHistory_opened (toks : List ℚ) (N : ℕ) (h : toks.length = 7 * N) :
    benchmarkHistoryAfter (N + 1) (openedStream toks)
      = (List.range (N + 1)).map (fun k : ℕ => ((k : ℚ) * 3600, rowVals toks k)) := by
  unfold benchmarkHistoryAfter openedStream
  rw [loadIter_opened N toks 0 h]
  simp

/-! ### Lemmas about the comparison phase -/

lemma compareIterationCount_eq_zero : compareIterationCount = 0 := by
  norm_num [compareIterationCount, seriesPropagationStart, fixedOutputInterval]

lemma testKeplerPropagator_eq_false (asterix benchmark : ℚ → Fin 6 → ℚ) :
    testKeplerPropagator asterix benchmark = false := by
  simp [testKeplerPropagator, compareIterationCount_eq_zero]

/-! ### Lemmas about the spec-modelled series driver and solver -/

lemma runTicks_ok (prop : CartesianElements → ℚ → Except PropagationStepError CartesianElements)
    (init : CartesianElements) (cfg : SeriesConfig) :
    ∀ (ks : List ℕ) (hist : List (ℚ × CartesianElements)),
      runTicks prop init cfg ks = .ok hist →
      ∀ (j : ℕ) (t : ℚ) (s : CartesianElements), hist[j]? = some (t, s) →
        ∃ kj, ks[j]? = some kj ∧ t = cfg.start + (kj : ℚ) * cfg.interval ∧
          prop init ((kj : ℚ) * cfg.interval) = .ok s := by
  intro ks
  induction ks with
  | nil =>
      intro hist h j t s hj
      rw [runTicks] at h
      cases h
      simp at hj
  | cons k ks ih =>
      intro hist h j t s hj
      rw [runTicks] at h
      cases hp : prop init ((k : ℚ) * cfg.interval) with
      | error e => rw [hp] at h; cases h
      | ok s0 =>
          rw [hp] at h
          cases hr : runTicks prop init cfg ks with
          | error e => rw [hr] at h; cases h
          | ok rest =>
              rw [hr] at h
              cases h
              cases j with
              | zero =>
                  simp at hj
                  exact ⟨k, by simp, hj.1.symm, by rw [hj.2] at hp; exact hp⟩
              | succ j =>
                  simp at hj
                  obtain ⟨kj, hks, ht, hprop⟩ := ih rest hr j t s hj
                  exact ⟨kj, by simpa using hks, ht, hprop⟩

lemma nrIterate_shift (f fp : ℚ → ℚ) (x : ℚ) :
    ∀ i, nrIterate f fp (nrStep f fp x) i = nrIterate f fp x (i + 1) := by
  intro i
  induction i with
  | zero => rfl
  | succ i ih => rw [nrIterate, ih]; rfl

lemma newtonRaphsonAux_error (f fp : ℚ → ℚ) (tol : ℚ) :
    ∀ (n : ℕ) (x : ℚ), (∀ i, i ≤ n → tol ≤ |f (nrIterate f fp x i)|) →
      newtonRaphsonAux f fp tol n x = .error .convergence := by
  intro n
  induction n with
  | zero =>
      intro x hx
      have h0 : tol ≤ |f x| := hx 0 le_rfl
      rw [newtonRaphsonAux, if_neg (not_lt.mpr h0)]
  | succ n ih =>
      intro x hx
      have h0 : tol ≤ |f x| := hx 0 (Nat.zero_le _)
      rw [newtonRaphsonAux, if_neg (not_lt.mpr h0)]
      refine ih (nrStep f fp x) ?_
      intro i hi
      rw [nrIterate_shift]
      exact hx (i + 1) (by omega)

lemma runTicks_error_at (prop : CartesianElements → ℚ → Except PropagationStepError CartesianElements)
    (init : CartesianElements) (cfg : SeriesConfig)
    (e : PropagationStepError) (k : ℕ) :
    ∀ ks1 : List ℕ, (∀ j ∈ ks1, (prop init ((j : ℚ) * cfg.interval)).isOk = true) →
      prop init ((k : ℚ) * cfg.interval) = .error e →
      ∀ ks2 : List ℕ, runTicks prop init cfg (ks1 ++ k :: ks2) = .error (.stepFailure k e) := by
  intro ks1
  induction ks1 with
  | nil =>
      intro _ hk ks2
      rw [List.nil_append, runTicks, hk]
  | cons j js ih =>
      intro hok hk ks2
      have hj := hok j (by simp)
      cases hp : prop init ((j : ℚ) * cfg.interval) with
      | error e2 => rw [hp] at hj; simp [Except.isOk, Except.toBool] at hj
      | ok s =>
          rw [List.cons_append, runTicks, hp,
            ih (fun a ha => hok a (by simp [ha])) hk ks2]

/-! ### Claim theorems -/

/-- C1: the calibration test is meant to report failure (return `true`)
whenever a propagated sample differs from the benchmark by more than
the 1e-6 tolerance, as the file header documents.  The code does not: a
propagated history a full 1000 km away from the benchmark in every
component exceeds the tolerance, yet `testKeplerPropagator` still
returns `false`, because the comparison loop bound
`start / interval = 0 / 3600` makes the loop body unreachable. -/
theorem C1_tolerance_violation_unreported :
    toleranceBetweenBenchmarkAndSimulationData
      < differenceKeplerData deviatedAsterixHistory benchmarkZeroHistory ∧
    testKeplerPropagator deviatedAsterixHistory benchmarkZeroHistory = false := by
  refine ⟨?_, testKeplerPropagator_eq_false _ _⟩
  norm_num [toleranceBetweenBenchmarkAndSimulationData, differenceKeplerData,
    computeAbsoluteValue, deviatedAsterixHistory, benchmarkZeroHistory, Fin.sum_univ_six]

/-- C2: with the series propagation start time 0.0 set by the test, the
comparison loop bound `start / interval` evaluates to 0, so the loop
body never executes and `testKeplerPropagator` returns `false` (test
passes) for every pair of histories, regardless of whether the
propagated history matches the benchmark data. -/
theorem C2_comparison_loop_never_executes :
    seriesPropagationStart = 0 ∧ compareIterationCount = 0 ∧
    ∀ asterix benchmark : ℚ → Fin 6 → ℚ,
      testKeplerPropagator asterix benchmark = false :=
  ⟨rfl, compareIterationCount_eq_zero, testKeplerPropagator_eq_false⟩

/-- C3: for every series-propagation configuration with a non-positive
output interval or with end time not greater than start time, the
series driver (modelled from the spec) fails with
`InvalidConfigurationError` before invoking the propagator, leaving no
partial run — the result is the same for every propagator and initial
state. -/
theorem C3_invalid_configuration_rejected
    (prop : CartesianElements → ℚ → Except PropagationStepError CartesianElements)
    (init : CartesianElements) (cfg : SeriesConfig)
    (h : cfg.interval ≤ 0 ∨ cfg.stop ≤ cfg.start) :
    seriesExecute prop init cfg = .error .invalidConfiguration := by
  unfold seriesExecute
  rw [if_pos h]

/-- C3 witness: the configuration with interval 0 is rejected. -/
theorem C3_invalid_configuration_rejected_witness :
    ((⟨0, 86400, 0⟩ : SeriesConfig).interval ≤ 0 ∨
      (⟨0, 86400, 0⟩ : SeriesConfig).stop ≤ (⟨0, 86400, 0⟩ : SeriesConfig).start) ∧
    seriesExecute (fun s _ => .ok s) zeroState ⟨0, 86400, 0⟩
      = .error .invalidConfiguration :=
  ⟨by decide, C3_invalid_configuration_rejected (fun s _ => .ok s) zeroState
    ⟨0, 86400, 0⟩ (by decide)⟩

/-- C6: during a successful series-propagation run (modelled from the
spec), the sample stored at position `j` of the history carries the
tick time `t = start + j * interval` and is exactly the result of
invoking the single-step propagator on the original initial state with
elapsed time `t - start` — since the propagator is universally
quantified here, the sample can never come from chaining the previous
sample forward. -/
theorem C6_samples_from_original_initial_state
    (prop : CartesianElements → ℚ → Except PropagationStepError CartesianElements)
    (init : CartesianElements) (cfg : SeriesConfig)
    (hist : List (ℚ × CartesianElements)) (j : ℕ) (t : ℚ) (s : CartesianElements)
    (hok : seriesExecute prop init cfg = .ok hist)
    (hj : hist[j]? = some (t, s)) :
    t = cfg.start + (j : ℚ) * cfg.interval ∧ prop init (t - cfg.start) = .ok s := by
  unfold seriesExecute at hok
  by_cases hv : cfg.interval ≤ 0 ∨ cfg.stop ≤ cfg.start
  · rw [if_pos hv] at hok; cases hok
  · rw [if_neg hv] at hok
    obtain ⟨kj, hks, ht, hprop⟩ := runTicks_ok prop init cfg _ hist hok j t s hj
    have hlt : j < numIntervals cfg + 1 := by
      by_contra hge
      rw [List.getElem?_eq_none (by simpa using Nat.le_of_not_lt hge)] at hks
      cases hks
    rw [List.getElem?_range hlt] at hks
    cases hks
    refine ⟨ht, ?_⟩
    have harith : t - cfg.start = (j : ℚ) * cfg.interval := by rw [ht]; ring
    rw [harith]
    exact hprop

/-- C6 witness: a three-tick run with the identity propagator, checked
at the middle sample. -/
theorem C6_samples_from_original_initial_state_witness :
    seriesExecute (fun s _ => .ok s) zeroState ⟨0, 2, 1⟩
        = .ok [(0, zeroState), (1, zeroState), (2, zeroState)] ∧
    ([(0, zeroState), (1, zeroState), (2, zeroState)] : List (ℚ × CartesianElements))[1]?
        = some (1, zeroState) ∧
    ((1 : ℚ) = (⟨0, 2, 1⟩ : SeriesConfig).start + ((1 : ℕ) : ℚ) * (⟨0, 2, 1⟩ : SeriesConfig).interval ∧
      (fun (s : CartesianElements) (_ : ℚ) =>
          (Except.ok s : Except PropagationStepError CartesianElements)) zeroState
          ((1 : ℚ) - (⟨0, 2, 1⟩ : SeriesConfig).start) = .ok zeroState) := by
  have hok : seriesExecute (fun s _ => .ok s) zeroState ⟨0, 2, 1⟩
      = .ok [(0, zeroState), (1, zeroState), (2, zeroState)] := by
    unfold seriesExecute
    rw [if_neg (by decide)]
    simp [numIntervals, runTicks, List.range_succ]
  exact ⟨hok, by simp,
    C6_samples_from_original_initial_state _ _ _ _ 1 1 zeroState hok (by simp)⟩

/-- C7: when every Newton-Raphson iterate within the maximum-iteration
cap leaves the residual at or above the tolerance, the solver (modelled
from the spec) fails with `ConvergenceError` — not a truncated or
sentinel `ok` result — and a series run whose step at tick `k` is built
from that solver result surfaces `stepFailure k convergence` to the
caller, naming the tick that triggered it. -/
theorem C7_convergence_error_surfaced (f fp : ℚ → ℚ) (tol x0 : ℚ) (cap : ℕ)
    (prop : CartesianElements → ℚ → Except PropagationStepError CartesianElements)
    (init : CartesianElements) (cfg : SeriesConfig) (k : ℕ) (g : ℚ → CartesianElements)
    (hres : ∀ i ∈ Finset.range (cap + 1), tol ≤ |f (nrIterate f fp x0 i)|)
    (hlink : prop init ((k : ℚ) * cfg.interval) = (newtonRaphson f fp tol cap x0).map g)
    (hvalid : ¬(cfg.interval ≤ 0 ∨ cfg.stop ≤ cfg.start))
    (hk : k ≤ numIntervals cfg)
    (hprev : ∀ j ∈ Finset.range k, (prop init ((j : ℚ) * cfg.interval)).isOk = true) :
    newtonRaphson f fp tol cap x0 = .error .convergence ∧
    seriesExecute prop init cfg = .error (.stepFailure k .convergence) := by
  have hnr : newtonRaphson f fp tol cap x0 = .error .convergence :=
    newtonRaphsonAux_error f fp tol cap x0
      (fun i hi => hres i (Finset.mem_range.mpr (by omega)))
  refine ⟨hnr, ?_⟩
  have hke : prop init ((k : ℚ) * cfg.interval) = .error .convergence := by
    rw [hlink, hnr]; rfl
  have hsplit : List.range (numIntervals cfg + 1)
      = List.range k ++ k :: (List.range (numIntervals cfg - k)).map (fun x => k + (x + 1)) := by
    rw [show numIntervals cfg + 1 = k + ((numIntervals cfg - k) + 1) by omega, List.range_add]
    rw [List.range_succ_eq_map, List.map_cons, List.map_map]
    simp [Function.comp]
  unfold seriesExecute
  rw [if_neg hvalid, hsplit]
  exact runTicks_error_at prop init cfg .convergence k (List.range k)
    (fun j hj => hprev j (Finset.mem_range.mpr (List.mem_range.mp hj))) hke _

/-- C7 witness: a residual stuck at 1 against tolerance 1 exhausts a
cap of 2 iterations; the failure surfaces at tick 0 of a five-interval
run. -/
theorem C7_convergence_error_surfaced_witness :
    (∀ i ∈ Finset.range (2 + 1),
      (1 : ℚ) ≤ |(fun _ : ℚ => (1 : ℚ)) (nrIterate (fun _ => 1) (fun _ => 1) 0 i)|) ∧
    ((fun (_ : CartesianElements) (_ : ℚ) =>
        (newtonRaphson (fun _ => (1 : ℚ)) (fun _ => 1) 1 2 0).map
          (fun _ => zeroState)) zeroState
        (((0 : ℕ) : ℚ) * (⟨0, 5, 1⟩ : SeriesConfig).interval)
      = (newtonRaphson (fun _ => (1 : ℚ)) (fun _ => 1) 1 2 0).map (fun _ => zeroState)) ∧
    ¬((⟨0, 5, 1⟩ : SeriesConfig).interval ≤ 0 ∨
        (⟨0, 5, 1⟩ : SeriesConfig).stop ≤ (⟨0, 5, 1⟩ : SeriesConfig).start) ∧
    0 ≤ numIntervals ⟨0, 5, 1⟩ ∧
    (∀ j ∈ Finset.range 0,
      ((fun (_ : CartesianElements) (_ : ℚ) =>
          (newtonRaphson (fun _ => (1 : ℚ)) (fun _ => 1) 1 2 0).map
            (fun _ => zeroState)) zeroState
          ((j : ℚ) * (⟨0, 5, 1⟩ : SeriesConfig).interval)).isOk = true) ∧
    (newtonRaphson (fun _ => (1 : ℚ)) (fun _ => 1) 1 2 0 = .error .convergence ∧
      seriesExecute
        (fun (_ : CartesianElements) (_ : ℚ) =>
          (newtonRaphson (fun _ => (1 : ℚ)) (fun _ => 1) 1 2 0).map (fun _ => zeroState))
        zeroState ⟨0, 5, 1⟩ = .error (.stepFailure 0 .convergence)) :=
  ⟨by simp, rfl, by decide, Nat.zero_le _, by simp,
    C7_convergence_error_surfaced (fun _ => 1) (fun _ => 1) 1 0 2 _ zeroState
      ⟨0, 5, 1⟩ 0 (fun _ => zeroState) (by simp) rfl (by decide) (Nat.zero_le _) (by simp)⟩

/-- C8: for a well-formed benchmark file of `N` 7-column rows, the
loader stores row `j` at key `j * 3600.0` derived from the integer row
counter — the elapsed-time column it reads is discarded and never
used as a key — holding the six state columns of the row; the key list
is `0 * 3600, 1 * 3600, ...,` in increasing order with no duplicate
keys. -/
theorem C8_benchmark_keys_from_row_counter (toks : List ℚ) (N j : ℕ)
    (h : toks.length = 7 * N) (hj : j < N) :
    (benchmarkHistoryAfter (N + 1) (openedStream toks))[j]?
        = some ((j : ℚ) * 3600, rowVals toks j) ∧
    (benchmarkHistoryAfter (N + 1) (openedStream toks)).map Prod.fst
        = (List.range (N + 1)).map (fun k : ℕ => (k : ℚ) * 3600) ∧
    ((benchmarkHistoryAfter (N + 1) (openedStream toks)).map Prod.fst).Nodup := by
  have hhist := benchmarkHistory_opened toks N h
  have hfst : (benchmarkHistoryAfter (N + 1) (openedStream toks)).map Prod.fst
      = (List.range (N + 1)).map (fun k : ℕ => (k : ℚ) * 3600) := by
    rw [hhist, List.map_map]
    rfl
  refine ⟨?_, hfst, ?_⟩
  · rw [hhist, List.getElem?_map, List.getElem?_range (by omega)]
    rfl
  · rw [hfst]
    refine List.Nodup.map ?_ (List.nodup_range _)
    intro a b hab
    have h36 : (3600 : ℚ) ≠ 0 := by norm_num
    exact_mod_cast mul_right_cancel₀ h36 hab

/-- C8 witness: a one-row file, checked at row 0. -/
theorem C8_benchmark_keys_from_row_counter_witness :
    ([9, 1, 2, 3, 4, 5, 6] : List ℚ).length = 7 * 1 ∧ 0 < 1 ∧
    ((benchmarkHistoryAfter (1 + 1) (openedStream [9, 1, 2, 3, 4, 5, 6]))[0]?
        = some (((0 : ℕ) : ℚ) * 3600, rowVals [9, 1, 2, 3, 4, 5, 6] 0) ∧
    (benchmarkHistoryAfter (1 + 1) (openedStream [9, 1, 2, 3, 4, 5, 6])).map Prod.fst
        = (List.range (1 + 1)).map (fun k : ℕ => (k : ℚ) * 3600) ∧
    ((benchmarkHistoryAfter (1 + 1) (openedStream [9, 1, 2, 3, 4, 5, 6])).map Prod.fst).Nodup) :=
  ⟨by decide, by decide,
    C8_benchmark_keys_from_row_counter [9, 1, 2, 3, 4, 5, 6] 1 0 (by decide) (by decide)⟩

/-- C9 counterexample: the claim that `testKeplerPropagator` continues
past a failed file open, runs the comparison and can still return
`false` is refuted — the loading loop guards on `eof()`, and on a
stream whose open failed (failbit set) extraction never sets the
eofbit, so the loop never exits. -/
theorem C9_counterexample_loading_loop_never_terminates :
    ¬ loadLoopTerminates unopenedStream := by
  rintro ⟨n, hn⟩
  unfold streamAfter unopenedStream at hn
  rw [loadIter_unopened n [] false 0] at hn
  simp at hn

/-- C9 amended: if the benchmark file cannot be opened,
`testKeplerPropagator` prints to cerr without returning early or
setting the erroneous flag, but it never reaches the comparison: after
any number of loading-loop iterations the failed stream's eofbit is
still clear, so the `while ( !file.eof( ) )` loop never exits and the
function does not return. -/
theorem C9_amended_unopened_stream_never_reaches_eof (n : ℕ) :
    (streamAfter n unopenedStream).eofbit = false := by
  unfold streamAfter unopenedStream
  rw [loadIter_unopened n [] false 0]

/-- C10: because the loading loop tests `eof()` before extracting, a
well-formed file of `N` 7-column rows drives `N + 1` loop iterations —
the eofbit is still clear after every iteration up to `N`, and only
the extra iteration past the data sets it — leaving a benchmark map of
`N + 1` entries whose final, spurious entry sits at key `N * 3600.0`
with an all-zero state. -/
theorem C10_spurious_extra_benchmark_entry (toks : List ℚ) (N m : ℕ)
    (h : toks.length = 7 * N) (hm : m ≤ N) :
    (streamAfter m (openedStream toks)).eofbit = false ∧
    (streamAfter (N + 1) (openedStream toks)).eofbit = true ∧
    (benchmarkHistoryAfter (N + 1) (openedStream toks)).length = N + 1 ∧
    (benchmarkHistoryAfter (N + 1) (openedStream toks))[N]?
        = some ((N : ℚ) * 3600, ![0,0,0,0,0,0]) := by
  have hhist := benchmarkHistory_opened toks N h
  refine ⟨?_, ?_, ?_, ?_⟩
  · unfold streamAfter openedStream
    rw [loadIter_progress m toks 0 (by omega)]
  · unfold streamAfter openedStream
    rw [loadIter_opened N toks 0 h]
  · rw [hhist]
    simp
  · rw [hhist, List.getElem?_map, List.getElem?_range (by omega)]
    rw [show ∀ x : ℕ, Option.map (fun k : ℕ => ((k : ℚ) * 3600, rowVals toks k)) (some x)
          = some ((x : ℚ) * 3600, rowVals toks x) from fun x => rfl]
    rw [rowVals_out_of_range toks N (by omega)]

/-- C10 witness: a one-row file yields two entries, the second
spurious. -/
theorem C10_spurious_extra_benchmark_entry_witness :
    ([9, 1, 2, 3, 4, 5, 6] : List ℚ).length = 7 * 1 ∧ 1 ≤ 1 ∧
    ((streamAfter 1 (openedStream [9, 1, 2, 3, 4, 5, 6])).eofbit = false ∧
    (streamAfter (1 + 1) (openedStream [9, 1, 2, 3, 4, 5, 6])).eofbit = true ∧
    (benchmarkHistoryAfter (1 + 1) (openedStream [9, 1, 2, 3, 4, 5, 6])).length = 1 + 1 ∧
    (benchmarkHistoryAfter (1 + 1) (openedStream [9, 1, 2, 3, 4, 5, 6]))[1]?
        = some (((1 : ℕ) : ℚ) * 3600, ![0,0,0,0,0,0])) :=
  ⟨by decide, by decide,
    C10_spurious_extra_benchmark_entry [9, 1, 2, 3, 4, 5, 6] 1 1 (by decide) (by decide)⟩

end Tudat
